import Mathlib

/-!
Verification of the kukkuu enrolment admission core.

The definitions below shallowly embed the Python source:
  events/schema.py   (validate_enrolment, EnrolOccurrenceMutation,
                      UnenrolOccurrenceMutation, PublishEventMutation,
                      OccurrenceNode.get_queryset)
  events/filters.py  (OccurrenceFilter)

Timestamps and primary keys are modelled as natural numbers; the database is
an explicit record of rows.  Each GraphQL mutation body runs inside
transaction.atomic, so a mutation is modelled as a function returning
Except: on error the caller keeps the pre-state (rollback), on ok the
returned state is the committed one.
-/

namespace Kukkuu

/-- An events_event row: capacity_per_occurrence and the nullable
published_at timestamp (other columns are irrelevant to the claims). -/
structure Event where
  id : Nat
  capacity_per_occurrence : Nat
  published_at : Option Nat
  deriving DecidableEq, Repr

/-- An events_occurrence row: foreign keys to event and venue, the time
column and the lower-cased occurrence_language column. -/
structure Occurrence where
  id : Nat
  event_id : Nat
  venue_id : Nat
  time : Nat
  occurrence_language : String
  deriving DecidableEq, Repr

/-- An events_enrolment row: the through table linking a child to an
occurrence, with its created_at timestamp. -/
structure Enrolment where
  child_id : Nat
  occurrence_id : Nat
  created_at : Nat
  deriving DecidableEq, Repr

/-- The database state visible to the admission engine.  children is the set
of child ids; guardian_pairs relates an acting user to the children it is a
guardian of. -/
structure DBState where
  events : List Event
  occurrences : List Occurrence
  children : List Nat
  guardian_pairs : List (Nat × Nat)
  enrolments : List Enrolment
  deriving DecidableEq, Repr

/-- The user-visible failures raised as KukkuuGraphQLError by the mutations,
plus internalError for an infrastructure exception escaping the
transaction. -/
inductive KukkuuError where
  | occurrenceNotFound
  | childNotFound
  | childAlreadyJoined
  | maximumEnrolments
  | occurrenceInPast
  | eventNotFound
  | eventAlreadyPublished
  | internalError
  deriving DecidableEq, Repr

/-- Occurrence.objects.get(pk=oid). -/
def findOccurrence (s : DBState) (oid : Nat) : Option Occurrence :=
  s.occurrences.find? (fun o => o.id == oid)

/-- Event.objects.get(pk=eid). -/
def findEvent (s : DBState) (eid : Nat) : Option Event :=
  s.events.find? (fun ev => ev.id == eid)

/-- Modelled from the spec: Child.objects.user_can_update(user).get(pk=cid)
(children/models.py is not under src/).  Per the spec, the child must exist
and the acting user must be a guardian of it. -/
def childLookup (s : DBState) (user cid : Nat) : Bool :=
  s.children.contains cid && s.guardian_pairs.contains (user, cid)

/-- Whether enrolment e belongs to event eid, resolved through its
occurrence foreign key. -/
def enrolmentMatchesEvent (s : DBState) (eid : Nat) (e : Enrolment) : Bool :=
  match findOccurrence s e.occurrence_id with
  | some o => o.event_id == eid
  | none => false

/-- child.occurrences.filter(event=occurrence.event).exists():
the child already holds an enrolment in some occurrence of event eid. -/
def childJoinedEvent (s : DBState) (cid eid : Nat) : Bool :=
  s.enrolments.any (fun e => e.child_id == cid && enrolmentMatchesEvent s eid e)

/-- occurrence.enrolments: the enrolment rows of occurrence oid. -/
def occurrenceEnrolments (s : DBState) (oid : Nat) : List Enrolment :=
  s.enrolments.filter (fun e => e.occurrence_id == oid)

/-- events/schema.py validate_enrolment(child, occurrence), with the three
checks in source order: duplicate join, capacity, past time.  The event row
is resolved through the occurrence foreign key exactly where the source
first dereferences occurrence.event.capacity_per_occurrence. -/
def validate_enrolment (s : DBState) (now cid : Nat) (occ : Occurrence) :
    Option KukkuuError :=
  if childJoinedEvent s cid occ.event_id then some .childAlreadyJoined
  else
    match findEvent s occ.event_id with
    | none => some .internalError
    | some ev =>
      if ev.capacity_per_occurrence ≤ (occurrenceEnrolments s occ.id).length then
        some .maximumEnrolments
      else if occ.time < now then some .occurrenceInPast
      else none

/-- EnrolOccurrenceMutation.mutate_and_get_payload: look up the occurrence,
look up the child restricted to the acting user's children, validate, then
create the enrolment row with created_at = now. -/
def enrolOccurrence (s : DBState) (now user oid cid : Nat) :
    Except KukkuuError (DBState × Enrolment) :=
  match findOccurrence s oid with
  | none => .error .occurrenceNotFound
  | some occ =>
    if childLookup s user cid then
      match validate_enrolment s now cid occ with
      | some err => .error err
      | none =>
        let e : Enrolment :=
          { child_id := cid, occurrence_id := occ.id, created_at := now }
        .ok ({ s with enrolments := e :: s.enrolments }, e)
    else .error .childNotFound

/-- True when enrolment e is the association of child cid with occurrence
oid. -/
def enrolmentLinks (cid oid : Nat) (e : Enrolment) : Bool :=
  e.child_id == cid && e.occurrence_id == oid

/-- UnenrolOccurrenceMutation.mutate_and_get_payload: look up the child
restricted to the acting user's children, look up the occurrence through the
child's own enrolments, then occurrence.children.remove(child) deletes the
through rows linking the child to the occurrence. -/
def unenrolOccurrence (s : DBState) (user oid cid : Nat) :
    Except KukkuuError DBState :=
  if childLookup s user cid then
    if s.enrolments.any (enrolmentLinks cid oid) then
      .ok { s with
            enrolments := s.enrolments.filter (fun e => !(enrolmentLinks cid oid e)) }
    else .error .occurrenceNotFound
  else .error .childNotFound

/-- Modelled from the spec: Event.is_published (events/models.py is not
under src/): an event is published when published_at is non-null. -/
def isPublished (ev : Event) : Bool :=
  ev.published_at.isSome

/-- Modelled from the spec: Event.publish (events/models.py is not under
src/): set published_at of event eid to the current time. -/
def setPublished (s : DBState) (eid now : Nat) : DBState :=
  { s with
    events := s.events.map
      (fun ev => if ev.id == eid then { ev with published_at := some now } else ev) }

/-- PublishEventMutation.mutate_and_get_payload.  dispatchFails records
whether send_event_notifications_to_guardians raises; that call sits inside
the try block and inside transaction.atomic, so when it raises the whole
mutation fails and every write of the transaction is rolled back, which the
Except-error return models. -/
def publishEvent (s : DBState) (now : Nat) (dispatchFails : Bool) (eid : Nat) :
    Except KukkuuError DBState :=
  match findEvent s eid with
  | none => .error .eventNotFound
  | some ev =>
    if isPublished ev then .error .eventAlreadyPublished
    else
      let s1 := setPublished s eid now
      if dispatchFails then .error .internalError
      else .ok s1

/-- transaction.atomic semantics for a state-returning mutation: an error
leaves the database at the pre-state. -/
def applyTx (s : DBState) (r : Except KukkuuError DBState) : DBState :=
  match r with
  | .ok s1 => s1
  | .error _ => s

/-- transaction.atomic semantics for the enrol mutation. -/
def applyEnrolTx (s : DBState) (r : Except KukkuuError (DBState × Enrolment)) :
    DBState :=
  match r with
  | .ok p => p.1
  | .error _ => s

/-- One committed mutation of the enrolment store. -/
inductive Step : DBState → DBState → Prop where
  | enrol (s s1 : DBState) (now user oid cid : Nat) (e : Enrolment)
      (h : enrolOccurrence s now user oid cid = .ok (s1, e)) : Step s s1
  | unenrol (s s1 : DBState) (user oid cid : Nat)
      (h : unenrolOccurrence s user oid cid = .ok s1) : Step s s1

/-- Reflexive-transitive closure of Step: the states reachable by Enrol and
Unenrol calls (failed calls roll back and do not change the state). -/
inductive Reachable : DBState → DBState → Prop where
  | refl (s : DBState) : Reachable s s
  | tail (s s1 s2 : DBState) (h1 : Reachable s s1) (h2 : Step s1 s2) :
      Reachable s s2

/-- Number of enrolments child cid holds across the occurrences of event
eid. -/
def eventEnrolCount (s : DBState) (cid eid : Nat) : Nat :=
  s.enrolments.countP (fun e => e.child_id == cid && enrolmentMatchesEvent s eid e)

/-- The (child, event)-uniqueness invariant: a child holds at most one
enrolment per event across all of that event's occurrences. -/
def EventUnique (s : DBState) : Prop :=
  ∀ cid eid : Nat, eventEnrolCount s cid eid ≤ 1

/-- OccurrenceNode.get_queryset: the occurrence queryset ordered ascending
by time. -/
def occurrencesQueryset (s : DBState) : List Occurrence :=
  List.insertionSort (fun a b => a.time ≤ b.time) s.occurrences

/-- OccurrenceFilter.filter_by_upcoming: when the value is true keep the
occurrences with time at or after now, otherwise return the queryset
unchanged. -/
def filter_by_upcoming (qs : List Occurrence) (now : Nat) (value : Bool) :
    List Occurrence :=
  if value then qs.filter (fun o => decide (now ≤ o.time)) else qs

/-- Python str.lower() for the filter input, written over the character
list so that it evaluates by kernel reduction. -/
def lowerString (v : String) : String :=
  String.mk (v.data.map Char.toLower)

/-- OccurrenceFilter.filter_by_occurrence_language:
qs.filter(occurrence_language=value.lower()). -/
def filter_by_occurrence_language (qs : List Occurrence) (value : String) :
    List Occurrence :=
  qs.filter (fun o => o.occurrence_language == lowerString value)

/-! Concrete fixtures used by counterexamples and witnesses.  Event 1 has
capacity 2; occurrence 10 is at time 100 and occurrence 11 at time 300, both
of event 1; user 3 is guardian of children 7 and 8. -/

/-- Fixture event: id 1, capacity 2, unpublished. -/
def exEvent : Event :=
  { id := 1, capacity_per_occurrence := 2, published_at := none }

/-- Fixture occurrence 10 of event 1 at time 100. -/
def exOccA : Occurrence :=
  { id := 10, event_id := 1, venue_id := 5, time := 100, occurrence_language := "fi" }

/-- Fixture occurrence 11 of event 1 at time 300. -/
def exOccB : Occurrence :=
  { id := 11, event_id := 1, venue_id := 5, time := 300, occurrence_language := "en" }

/-- Fixture database with no enrolments. -/
def exBase : DBState :=
  { events := [exEvent], occurrences := [exOccA, exOccB],
    children := [7, 8], guardian_pairs := [(3, 7), (3, 8)], enrolments := [] }

/-- Fixture database where child 7 is enrolled in occurrence 10. -/
def exEnrolled : DBState :=
  { exBase with enrolments := [{ child_id := 7, occurrence_id := 10, created_at := 40 }] }

/-- Fixture database where occurrence 10 is at its capacity of 2 with the
enrolments of children 8 and 9; child 7 is not enrolled anywhere. -/
def exFull : DBState :=
  { exBase with enrolments :=
      [{ child_id := 8, occurrence_id := 10, created_at := 40 },
       { child_id := 9, occurrence_id := 10, created_at := 41 }] }

example : enrolOccurrence exBase 50 3 10 7 =
    .ok ({ exBase with enrolments := [{ child_id := 7, occurrence_id := 10, created_at := 50 }] },
         { child_id := 7, occurrence_id := 10, created_at := 50 }) := rfl

example : enrolOccurrence exBase 200 3 10 7 = .error .occurrenceInPast := rfl

example : enrolOccurrence exFull 200 3 10 7 = .error .maximumEnrolments := rfl

example : enrolOccurrence exEnrolled 50 3 11 7 = .error .childAlreadyJoined := rfl

example : unenrolOccurrence exEnrolled 3 10 7 = .ok exBase := rfl

example : publishEvent exBase 60 false 1 =
    .ok { exBase with events := [{ exEvent with published_at := some 60 }] } := rfl

example : publishEvent exBase 60 true 1 = .error .internalError := rfl

/-! Helper lemmas. -/

/-- A found occurrence has the looked-up id. -/
lemma findOccurrence_id {s : DBState} {oid : Nat} {occ : Occurrence}
    (h : findOccurrence s oid = some occ) : occ.id = oid := by
  have hp := List.find?_some h
  simpa using hp

/-- Changing only the enrolments leaves occurrence lookup unchanged. -/
lemma findOccurrence_update (s : DBState) (l : List Enrolment) (oid : Nat) :
    findOccurrence { s with enrolments := l } oid = findOccurrence s oid := rfl

/-- Changing only the enrolments leaves event lookup unchanged. -/
lemma findEvent_update (s : DBState) (l : List Enrolment) (eid : Nat) :
    findEvent { s with enrolments := l } eid = findEvent s eid := rfl

/-- Changing only the enrolments leaves the child lookup unchanged. -/
lemma childLookup_update (s : DBState) (l : List Enrolment) (user cid : Nat) :
    childLookup { s with enrolments := l } user cid = childLookup s user cid := rfl

/-- Changing only the enrolments leaves event membership of a fixed
enrolment row unchanged. -/
lemma enrolmentMatchesEvent_update (s : DBState) (l : List Enrolment)
    (eid : Nat) (e : Enrolment) :
    enrolmentMatchesEvent { s with enrolments := l } eid e =
      enrolmentMatchesEvent s eid e := rfl

/-- The per-(child, event) count after replacing the enrolment table. -/
lemma eventEnrolCount_update (s : DBState) (l : List Enrolment) (cid eid : Nat) :
    eventEnrolCount { s with enrolments := l } cid eid =
      l.countP (fun e => e.child_id == cid && enrolmentMatchesEvent s eid e) := rfl

/-- The joined-test after replacing the enrolment table. -/
lemma childJoinedEvent_update (s : DBState) (l : List Enrolment) (cid eid : Nat) :
    childJoinedEvent { s with enrolments := l } cid eid =
      l.any (fun e => e.child_id == cid && enrolmentMatchesEvent s eid e) := rfl

/-- The event membership of a freshly created enrolment row for occurrence
occ. -/
lemma enrolmentMatchesEvent_new {s : DBState} {occ : Occurrence}
    (hocc : findOccurrence s occ.id = some occ) (cid now eid0 : Nat) :
    enrolmentMatchesEvent s eid0
        { child_id := cid, occurrence_id := occ.id, created_at := now } =
      (occ.event_id == eid0) := by
  unfold enrolmentMatchesEvent
  simp only [hocc]

/-- Inversion of a validation pass: no duplicate join, the event row exists,
strictly under capacity and not in the past. -/
lemma validate_none_inv {s : DBState} {now cid : Nat} {occ : Occurrence}
    (h : validate_enrolment s now cid occ = none) :
    childJoinedEvent s cid occ.event_id = false ∧
    ∃ ev, findEvent s occ.event_id = some ev ∧
      (occurrenceEnrolments s occ.id).length < ev.capacity_per_occurrence ∧
      now ≤ occ.time := by
  unfold validate_enrolment at h
  by_cases hj : childJoinedEvent s cid occ.event_id = true
  · simp [hj] at h
  · have hj2 : childJoinedEvent s cid occ.event_id = false := by
      simpa using hj
    refine ⟨hj2, ?_⟩
    rw [hj2] at h
    simp only [Bool.false_eq_true, if_false] at h
    cases hev : findEvent s occ.event_id with
    | none => rw [hev] at h; simp at h
    | some ev =>
      rw [hev] at h
      refine ⟨ev, rfl, ?_, ?_⟩
      · by_cases hcap : ev.capacity_per_occurrence ≤ (occurrenceEnrolments s occ.id).length
        · simp [hcap] at h
        · exact Nat.lt_of_not_le hcap
      · by_cases hcap : ev.capacity_per_occurrence ≤ (occurrenceEnrolments s occ.id).length
        · simp [hcap] at h
        · simp only [if_neg hcap] at h
          by_cases ht : occ.time < now
          · simp [ht] at h
          · exact Nat.le_of_not_lt ht

/-- Inversion of a successful enrolment. -/
lemma enrol_ok_inv {s s1 : DBState} {now user oid cid : Nat} {e : Enrolment}
    (h : enrolOccurrence s now user oid cid = .ok (s1, e)) :
    ∃ occ, findOccurrence s oid = some occ ∧ childLookup s user cid = true ∧
      validate_enrolment s now cid occ = none ∧
      e = { child_id := cid, occurrence_id := occ.id, created_at := now } ∧
      s1 = { s with enrolments := e :: s.enrolments } := by
  unfold enrolOccurrence at h
  cases hocc : findOccurrence s oid with
  | none => rw [hocc] at h; simp at h
  | some occ =>
    rw [hocc] at h
    by_cases hc : childLookup s user cid = true
    · rw [hc] at h
      simp only [if_true] at h
      cases hv : validate_enrolment s now cid occ with
      | some err => rw [hv] at h; simp at h
      | none =>
        rw [hv] at h
        simp only [Except.ok.injEq, Prod.mk.injEq] at h
        exact ⟨occ, rfl, hc, hv, h.2.symm, by rw [h.1.symm, h.2.symm]⟩
    · have hc2 : childLookup s user cid = false := by simpa using hc
      rw [hc2] at h
      simp at h

/-- Inversion of a successful unenrolment. -/
lemma unenrol_ok_inv {s s1 : DBState} {user oid cid : Nat}
    (h : unenrolOccurrence s user oid cid = .ok s1) :
    childLookup s user cid = true ∧
    s.enrolments.any (enrolmentLinks cid oid) = true ∧
    s1 = { s with
           enrolments := s.enrolments.filter (fun e => !(enrolmentLinks cid oid e)) } := by
  unfold unenrolOccurrence at h
  by_cases hc : childLookup s user cid = true
  · rw [hc] at h
    simp only [if_true] at h
    by_cases ha : s.enrolments.any (enrolmentLinks cid oid) = true
    · rw [ha] at h
      simp only [if_true, Except.ok.injEq] at h
      exact ⟨hc, ha, h.symm⟩
    · have ha2 : s.enrolments.any (enrolmentLinks cid oid) = false := by simpa using ha
      rw [ha2] at h
      simp at h
  · have hc2 : childLookup s user cid = false := by simpa using hc
    rw [hc2] at h
    simp at h

/-- When the duplicate-join check passes, the child holds no enrolment in
the event: the per-(child, event) count is zero. -/
lemma count_zero_of_not_joined {s : DBState} {cid eid : Nat}
    (h : childJoinedEvent s cid eid = false) :
    eventEnrolCount s cid eid = 0 := by
  unfold childJoinedEvent at h
  unfold eventEnrolCount
  rw [List.countP_eq_zero]
  exact List.any_eq_false.mp h

/-- A successful enrolment preserves the (child, event)-uniqueness
invariant. -/
lemma enrol_preserves_eventUnique {s s1 : DBState} {now user oid cid : Nat}
    {e : Enrolment} (h : enrolOccurrence s now user oid cid = .ok (s1, e))
    (hu : EventUnique s) : EventUnique s1 := by
  obtain ⟨occ, hocc, hc, hv, he, hs1⟩ := enrol_ok_inv h
  obtain ⟨hnodup, ev, hev, hcap, htime⟩ := validate_none_inv hv
  have hoccId : findOccurrence s occ.id = some occ := by
    rw [findOccurrence_id hocc]; exact hocc
  subst hs1
  subst he
  intro cid0 eid0
  rw [eventEnrolCount_update, List.countP_cons]
  by_cases h1 : cid0 = cid ∧ eid0 = occ.event_id
  · rw [h1.1, h1.2]
    have hz : eventEnrolCount s cid occ.event_id = 0 := count_zero_of_not_joined hnodup
    unfold eventEnrolCount at hz
    rw [hz]
    split
    · exact Nat.le_refl 1
    · exact Nat.zero_le 1
  · have hp : (({ child_id := cid, occurrence_id := occ.id, created_at := now } :
        Enrolment).child_id == cid0 &&
        enrolmentMatchesEvent s eid0
          { child_id := cid, occurrence_id := occ.id, created_at := now }) = false := by
      simp only [enrolmentMatchesEvent_new hoccId]
      by_cases hcid : cid = cid0
      · subst hcid
        have heid : occ.event_id ≠ eid0 := fun hh => h1 ⟨rfl, hh.symm⟩
        simp [heid]
      · simp [hcid]
    rw [hp]
    simp only [Bool.false_eq_true, if_false, Nat.add_zero]
    exact hu cid0 eid0

/-- A successful unenrolment preserves the (child, event)-uniqueness
invariant. -/
lemma unenrol_preserves_eventUnique {s s1 : DBState} {user oid cid : Nat}
    (h : unenrolOccurrence s user oid cid = .ok s1)
    (hu : EventUnique s) : EventUnique s1 := by
  obtain ⟨hc, ha, hs1⟩ := unenrol_ok_inv h
  subst hs1
  intro cid0 eid0
  rw [eventEnrolCount_update]
  have hsub := List.filter_sublist (p := fun e => !(enrolmentLinks cid oid e)) s.enrolments
  exact Nat.le_trans
    (hsub.countP_le (fun e => e.child_id == cid0 && enrolmentMatchesEvent s eid0 e))
    (hu cid0 eid0)

/-- A committed mutation preserves the (child, event)-uniqueness
invariant. -/
lemma step_preserves_eventUnique {s s1 : DBState} (h : Step s s1)
    (hu : EventUnique s) : EventUnique s1 := by
  cases h with
  | enrol now user oid cid e he => exact enrol_preserves_eventUnique he hu
  | unenrol user oid cid he => exact unenrol_preserves_eventUnique he hu

/-- Reachability preserves the (child, event)-uniqueness invariant. -/
lemma reachable_preserves_eventUnique {s0 s : DBState} (h : Reachable s0 s)
    (hu : EventUnique s0) : EventUnique s := by
  induction h with
  | refl => exact hu
  | tail s1 s2 h1 h2 ih => exact step_preserves_eventUnique h2 ih

/-- When the target occurrence and authorized child exist and the child
already joined the event, enrolment fails with the duplicate-join error. -/
lemma enrol_error_of_joined {s : DBState} {now user oid cid : Nat}
    {occ : Occurrence} (hocc : findOccurrence s oid = some occ)
    (hchild : childLookup s user cid = true)
    (hj : childJoinedEvent s cid occ.event_id = true) :
    enrolOccurrence s now user oid cid = .error .childAlreadyJoined := by
  unfold enrolOccurrence
  rw [hocc, hchild]
  simp only [if_true]
  have hv : validate_enrolment s now cid occ = some .childAlreadyJoined := by
    unfold validate_enrolment
    rw [hj]
    simp
  rw [hv]

/-- When no duplicate join exists but the occurrence is at or over capacity,
enrolment fails with the capacity error. -/
lemma enrol_error_of_full {s : DBState} {now user oid cid : Nat}
    {occ : Occurrence} {ev : Event} (hocc : findOccurrence s oid = some occ)
    (hchild : childLookup s user cid = true)
    (hnodup : childJoinedEvent s cid occ.event_id = false)
    (hev : findEvent s occ.event_id = some ev)
    (hcap : ev.capacity_per_occurrence ≤ (occurrenceEnrolments s oid).length) :
    enrolOccurrence s now user oid cid = .error .maximumEnrolments := by
  unfold enrolOccurrence
  rw [hocc, hchild]
  simp only [if_true]
  have hv : validate_enrolment s now cid occ = some .maximumEnrolments := by
    unfold validate_enrolment
    rw [hnodup]
    simp only [Bool.false_eq_true, if_false]
    rw [hev, findOccurrence_id hocc]
    dsimp only
    rw [if_pos hcap]
  rw [hv]

/-- When no duplicate join exists, the occurrence is under capacity but its
time is in the past, enrolment fails with the past-occurrence error. -/
lemma enrol_error_of_past {s : DBState} {now user oid cid : Nat}
    {occ : Occurrence} {ev : Event} (hocc : findOccurrence s oid = some occ)
    (hchild : childLookup s user cid = true)
    (hnodup : childJoinedEvent s cid occ.event_id = false)
    (hev : findEvent s occ.event_id = some ev)
    (hcap : (occurrenceEnrolments s oid).length < ev.capacity_per_occurrence)
    (hpast : occ.time < now) :
    enrolOccurrence s now user oid cid = .error .occurrenceInPast := by
  unfold enrolOccurrence
  rw [hocc, hchild]
  simp only [if_true]
  have hv : validate_enrolment s now cid occ = some .occurrenceInPast := by
    unfold validate_enrolment
    rw [hnodup]
    simp only [Bool.false_eq_true, if_false]
    rw [hev, findOccurrence_id hocc]
    dsimp only
    rw [if_neg (Nat.not_le.mpr hcap), if_pos hpast]
  rw [hv]

/-- When every admission check passes, enrolment succeeds and appends the
new enrolment row with created_at = now. -/
lemma enrol_ok_of_valid {s : DBState} {now user oid cid : Nat}
    {occ : Occurrence} {ev : Event} (hocc : findOccurrence s oid = some occ)
    (hchild : childLookup s user cid = true)
    (hnodup : childJoinedEvent s cid occ.event_id = false)
    (hev : findEvent s occ.event_id = some ev)
    (hcap : (occurrenceEnrolments s oid).length < ev.capacity_per_occurrence)
    (hfuture : now ≤ occ.time) :
    enrolOccurrence s now user oid cid =
      .ok ({ s with enrolments :=
               { child_id := cid, occurrence_id := oid, created_at := now } ::
                 s.enrolments },
           { child_id := cid, occurrence_id := oid, created_at := now }) := by
  unfold enrolOccurrence
  rw [hocc, hchild]
  simp only [if_true]
  have hv : validate_enrolment s now cid occ = none := by
    unfold validate_enrolment
    rw [hnodup]
    simp only [Bool.false_eq_true, if_false]
    rw [hev, findOccurrence_id hocc]
    dsimp only
    rw [if_neg (Nat.not_le.mpr hcap), if_neg (Nat.not_lt.mpr hfuture)]
  rw [hv, findOccurrence_id hocc]

/-- EventUnique holds in any state with at most one enrolment row. -/
lemma eventUnique_of_short (s : DBState) (h : s.enrolments.length ≤ 1) :
    EventUnique s := by
  intro cid eid
  unfold eventEnrolCount
  exact Nat.le_trans (List.countP_le_length _) h

/-- The fixture state with one enrolment satisfies the uniqueness
invariant. -/
lemma exEnrolled_eventUnique : EventUnique exEnrolled :=
  eventUnique_of_short exEnrolled (by decide)

/-! Claim theorems. -/

/-- C1 counterexample: in exBase, occurrence 10 exists, child 7 exists and
user 3 is its guardian, the child is not enrolled in event 1, and the
occurrence holds strictly fewer enrolments than the capacity; yet at time
200 Enrol does not create the enrolment — it fails with the past-occurrence
error, refuting the claimed equivalence between creation and spare
capacity. -/
theorem C1_capacity_counterexample :
    findOccurrence exBase 10 = some exOccA ∧
    childLookup exBase 3 7 = true ∧
    childJoinedEvent exBase 7 exOccA.event_id = false ∧
    findEvent exBase exOccA.event_id = some exEvent ∧
    (occurrenceEnrolments exBase 10).length < exEvent.capacity_per_occurrence ∧
    enrolOccurrence exBase 200 3 10 7 = .error .occurrenceInPast ∧
    applyEnrolTx exBase (enrolOccurrence exBase 200 3 10 7) = exBase :=
  ⟨rfl, rfl, rfl, rfl, by decide, rfl, rfl⟩

/-- C1 (amended): for an Enrol call where the occurrence and authorized
child exist, the child is not already enrolled in the event, and
additionally the occurrence's time is not in the past, the enrolment is
created iff the count of existing enrolments for the occurrence is strictly
below the event's capacity_per_occurrence; at or over capacity the call
fails with the capacity-exceeded error and no enrolment is created. -/
theorem C1_capacity_admission (s : DBState) (now user oid cid : Nat)
    (occ : Occurrence) (ev : Event)
    (hocc : findOccurrence s oid = some occ)
    (hchild : childLookup s user cid = true)
    (hnodup : childJoinedEvent s cid occ.event_id = false)
    (hev : findEvent s occ.event_id = some ev)
    (hfuture : now ≤ occ.time) :
    ((occurrenceEnrolments s oid).length < ev.capacity_per_occurrence →
      enrolOccurrence s now user oid cid =
        .ok ({ s with enrolments :=
                 { child_id := cid, occurrence_id := oid, created_at := now } ::
                   s.enrolments },
             { child_id := cid, occurrence_id := oid, created_at := now })) ∧
    (ev.capacity_per_occurrence ≤ (occurrenceEnrolments s oid).length →
      enrolOccurrence s now user oid cid = .error .maximumEnrolments ∧
      applyEnrolTx s (enrolOccurrence s now user oid cid) = s) := by
  constructor
  · intro hcap
    exact enrol_ok_of_valid hocc hchild hnodup hev hcap hfuture
  · intro hcap
    have herr := @enrol_error_of_full s now user oid cid occ ev hocc hchild hnodup hev hcap
    refine ⟨herr, ?_⟩
    rw [herr]
    rfl

/-- C1 witness: in exBase at time 50, the under-capacity branch creates the
enrolment of child 7 in occurrence 10; in exFull, where occurrence 10 holds
its capacity of 2 enrolments, the call fails with the capacity error. -/
theorem C1_capacity_admission_witness :
    enrolOccurrence exBase 50 3 10 7 =
      .ok ({ exBase with enrolments :=
               [{ child_id := 7, occurrence_id := 10, created_at := 50 }] },
           { child_id := 7, occurrence_id := 10, created_at := 50 }) ∧
    enrolOccurrence exFull 50 3 10 7 = .error .maximumEnrolments := by
  constructor
  · exact (C1_capacity_admission exBase 50 3 10 7 exOccA exEvent rfl rfl rfl rfl
      (by decide)).1 (by decide)
  · exact ((C1_capacity_admission exFull 50 3 10 7 exOccA exEvent rfl rfl rfl rfl
      (by decide)).2 (by decide)).1

/-- C2: in every state reachable by Enrol and Unenrol from a state
satisfying the (child, event)-uniqueness invariant, the invariant still
holds, and any Enrol attempt for a child that already holds an enrolment in
some occurrence of the target occurrence's event fails with the
duplicate-join error, leaving the state unchanged. -/
theorem C2_event_uniqueness (s0 s : DBState) (h0 : EventUnique s0)
    (hr : Reachable s0 s) :
    EventUnique s ∧
    ∀ (now user oid cid : Nat) (occ : Occurrence),
      findOccurrence s oid = some occ →
      childLookup s user cid = true →
      childJoinedEvent s cid occ.event_id = true →
      enrolOccurrence s now user oid cid = .error .childAlreadyJoined ∧
      applyEnrolTx s (enrolOccurrence s now user oid cid) = s := by
  refine ⟨reachable_preserves_eventUnique hr h0, ?_⟩
  intro now user oid cid occ hocc hchild hj
  have herr := @enrol_error_of_joined s now user oid cid occ hocc hchild hj
  refine ⟨herr, ?_⟩
  rw [herr]
  rfl

/-- C2 witness: in exEnrolled child 7 is enrolled in occurrence 10 of
event 1; attempting to enrol it in occurrence 11 of the same event fails
with the duplicate-join error. -/
theorem C2_event_uniqueness_witness :
    enrolOccurrence exEnrolled 50 3 11 7 = .error .childAlreadyJoined :=
  ((C2_event_uniqueness exEnrolled exEnrolled exEnrolled_eventUnique
    (Reachable.refl exEnrolled)).2 50 3 11 7 exOccB rfl rfl rfl).1

/-- C3 counterexample: in exFull, occurrence 10 is in the past at time 200
and also at capacity; the reported failure is the capacity error, not the
past-occurrence conflict, refuting the claim that the past-occurrence error
is reported even when the occurrence is at or over capacity. -/
theorem C3_past_counterexample :
    exOccA.time < 200 ∧
    findOccurrence exFull 10 = some exOccA ∧
    childLookup exFull 3 7 = true ∧
    childJoinedEvent exFull 7 exOccA.event_id = false ∧
    enrolOccurrence exFull 200 3 10 7 = .error .maximumEnrolments ∧
    enrolOccurrence exFull 200 3 10 7 ≠ .error .occurrenceInPast := by
  refine ⟨by decide, rfl, rfl, rfl, rfl, ?_⟩
  intro hcontra
  rw [show enrolOccurrence exFull 200 3 10 7 =
      Except.error KukkuuError.maximumEnrolments from rfl] at hcontra
  simp at hcontra

/-- C3 (amended): Enrol on an occurrence whose time is strictly in the past
always fails and leaves the state unchanged, but the past-occurrence error
is the reported failure only when the duplicate-join and capacity checks
pass; at or over capacity the capacity error is reported instead, because
the source checks capacity before time. -/
theorem C3_past_occurrence (s : DBState) (now user oid cid : Nat)
    (occ : Occurrence)
    (hocc : findOccurrence s oid = some occ)
    (hchild : childLookup s user cid = true)
    (hpast : occ.time < now) :
    (∀ s1 e, enrolOccurrence s now user oid cid ≠ .ok (s1, e)) ∧
    applyEnrolTx s (enrolOccurrence s now user oid cid) = s ∧
    (childJoinedEvent s cid occ.event_id = false →
      ∀ ev, findEvent s occ.event_id = some ev →
        (occurrenceEnrolments s oid).length < ev.capacity_per_occurrence →
        enrolOccurrence s now user oid cid = .error .occurrenceInPast) := by
  have hnotok : ∀ s1 e, enrolOccurrence s now user oid cid ≠ .ok (s1, e) := by
    intro s1 e hok
    obtain ⟨occ2, hocc2, _, hv, _, _⟩ := enrol_ok_inv hok
    have : occ2 = occ := Option.some.inj (hocc2.symm.trans hocc)
    subst this
    obtain ⟨_, _, _, _, htime⟩ := validate_none_inv hv
    exact Nat.not_lt.mpr htime hpast
  refine ⟨hnotok, ?_, ?_⟩
  · cases hre : enrolOccurrence s now user oid cid with
    | ok p => exact absurd hre (hnotok p.1 p.2)
    | error err => rfl
  · intro hnodup ev hev hcap
    exact enrol_error_of_past hocc hchild hnodup hev hcap hpast

/-- C3 witness: in exBase at time 200, occurrence 10 is in the past, under
capacity and duplicate-free, so the reported failure is the past-occurrence
error. -/
theorem C3_past_occurrence_witness :
    enrolOccurrence exBase 200 3 10 7 = .error .occurrenceInPast :=
  (C3_past_occurrence exBase 200 3 10 7 exOccA rfl rfl (by decide)).2.2
    rfl exEvent rfl (by decide)

/-- Looking up an event id through a map that preserves ids commutes with
find?. -/
lemma find?_map_id_preserving (f : Event → Event)
    (hf : ∀ a : Event, (f a).id = a.id) (eid0 : Nat) :
    ∀ l : List Event,
      (l.map f).find? (fun a => a.id == eid0) =
        (l.find? (fun a => a.id == eid0)).map f := by
  intro l
  induction l with
  | nil => rfl
  | cons a t ih =>
    simp only [List.map_cons, List.find?_cons, hf a]
    cases h : (a.id == eid0) with
    | true => rfl
    | false => exact ih

/-- Event lookup after setPublished returns the looked-up row with the
publish update applied when its id matches. -/
lemma findEvent_setPublished (s : DBState) (eid now eid0 : Nat) :
    findEvent (setPublished s eid now) eid0 =
      (findEvent s eid0).map
        (fun ev => if ev.id == eid then { ev with published_at := some now }
                   else ev) := by
  unfold findEvent setPublished
  exact find?_map_id_preserving _ (fun a => by split <;> rfl) eid0 s.events

/-- C4: the first Publish call on an unpublished event succeeds and sets its
published_at to the current time; any later Publish call on the same event
fails with the already-published conflict and, through the transaction
semantics, leaves published_at unchanged at the value set by the first
call. -/
theorem C4_publish_guard (s : DBState) (now1 now2 : Nat) (d2 : Bool)
    (eid : Nat) (ev : Event)
    (hev : findEvent s eid = some ev)
    (hunpub : ev.published_at = none) :
    ∃ s1, publishEvent s now1 false eid = .ok s1 ∧
      findEvent s1 eid = some { ev with published_at := some now1 } ∧
      publishEvent s1 now2 d2 eid = .error .eventAlreadyPublished ∧
      applyTx s1 (publishEvent s1 now2 d2 eid) = s1 ∧
      findEvent (applyTx s1 (publishEvent s1 now2 d2 eid)) eid =
        some { ev with published_at := some now1 } := by
  have hid : ev.id = eid := by
    have := List.find?_some hev
    simpa using this
  have hok : publishEvent s now1 false eid = .ok (setPublished s eid now1) := by
    unfold publishEvent
    rw [hev]
    dsimp only
    have hpub : isPublished ev = false := by
      unfold isPublished
      rw [hunpub]
      rfl
    rw [hpub]
    rfl
  have hfind : findEvent (setPublished s eid now1) eid =
      some { ev with published_at := some now1 } := by
    rw [findEvent_setPublished, hev]
    dsimp only [Option.map]
    rw [if_pos (show (ev.id == eid) = true by simpa using hid)]
  have herr : publishEvent (setPublished s eid now1) now2 d2 eid =
      .error .eventAlreadyPublished := by
    unfold publishEvent
    rw [hfind]
    rfl
  refine ⟨setPublished s eid now1, hok, hfind, herr, ?_, ?_⟩
  · rw [herr]
    rfl
  · rw [herr]
    exact hfind

/-- C4 witness: publishing event 1 of exBase at time 60 sets published_at to
60; a second publish at time 70 fails with the already-published conflict
and published_at stays 60. -/
theorem C4_publish_guard_witness :
    ∃ s1, publishEvent exBase 60 false 1 = .ok s1 ∧
      findEvent s1 1 = some { exEvent with published_at := some 60 } ∧
      publishEvent s1 70 false 1 = .error .eventAlreadyPublished ∧
      applyTx s1 (publishEvent s1 70 false 1) = s1 ∧
      findEvent (applyTx s1 (publishEvent s1 70 false 1)) 1 =
        some { exEvent with published_at := some 60 } :=
  C4_publish_guard exBase 60 70 false 1 exEvent rfl rfl

/-- C5: in the source, send_event_notifications_to_guardians runs inside
the same transaction.atomic block as event.publish, so when notification
dispatch raises, the whole mutation fails and the transaction rolls the
publish back: afterwards the event's published_at is still null, contrary
to the claim that the publish survives a dispatch failure. -/
theorem C5_dispatch_rollback (s : DBState) (now eid : Nat) (ev : Event)
    (hev : findEvent s eid = some ev)
    (hunpub : ev.published_at = none) :
    publishEvent s now true eid = .error .internalError ∧
    applyTx s (publishEvent s now true eid) = s ∧
    findEvent (applyTx s (publishEvent s now true eid)) eid = some ev ∧
    ev.published_at = none := by
  have herr : publishEvent s now true eid = .error .internalError := by
    unfold publishEvent
    rw [hev]
    dsimp only
    have hpub : isPublished ev = false := by
      unfold isPublished
      rw [hunpub]
      rfl
    rw [hpub]
    rfl
  refine ⟨herr, ?_, ?_, hunpub⟩
  · rw [herr]
    rfl
  · rw [herr]
    exact hev

/-- C5 witness: a dispatch failure while publishing event 1 of exBase rolls
the mutation back and event 1 remains unpublished. -/
theorem C5_dispatch_rollback_witness :
    publishEvent exBase 60 true 1 = .error .internalError ∧
    applyTx exBase (publishEvent exBase 60 true 1) = exBase ∧
    findEvent (applyTx exBase (publishEvent exBase 60 true 1)) 1 =
      some exEvent ∧
    exEvent.published_at = none :=
  C5_dispatch_rollback exBase 60 1 exEvent rfl rfl

/-- Two members of a list of length at most one are equal. -/
lemma mem_eq_of_length_le_one {α : Type} {l : List α} (h : l.length ≤ 1)
    {a b : α} (ha : a ∈ l) (hb : b ∈ l) : a = b := by
  cases l with
  | nil => cases ha
  | cons x t =>
    cases t with
    | nil =>
      rw [List.mem_singleton] at ha hb
      rw [ha, hb]
    | cons y t2 =>
      simp only [List.length_cons] at h
      omega

/-- An enrolment linking child cid to occurrence oid counts toward the
(cid, event-of-oid) pair. -/
lemma links_event_pred {s : DBState} {cid oid : Nat} {occ : Occurrence}
    (hocc : findOccurrence s oid = some occ) {e : Enrolment}
    (hl : enrolmentLinks cid oid e = true) :
    (e.child_id == cid && enrolmentMatchesEvent s occ.event_id e) = true := by
  unfold enrolmentLinks at hl
  obtain ⟨h1, h2⟩ := Bool.and_eq_true_iff.mp hl
  rw [Bool.and_eq_true]
  refine ⟨h1, ?_⟩
  unfold enrolmentMatchesEvent
  have h3 : e.occurrence_id = oid := by simpa using h2
  rw [h3, hocc]
  simp

/-- Removing a child's association with an occurrence, in a state
satisfying the uniqueness invariant, removes its only enrolment in the
occurrence's event: afterwards the joined-test predicate holds of no
remaining enrolment row. -/
lemma not_joined_after_unenrol {s : DBState} {cid oid : Nat}
    {occ : Occurrence} (hocc : findOccurrence s oid = some occ)
    (hu : EventUnique s)
    (ha : s.enrolments.any (enrolmentLinks cid oid) = true) :
    (s.enrolments.filter (fun e => !(enrolmentLinks cid oid e))).any
      (fun e => e.child_id == cid && enrolmentMatchesEvent s occ.event_id e) =
      false := by
  rw [List.any_eq_false]
  intro e he
  rw [List.mem_filter] at he
  obtain ⟨hmem, hnl⟩ := he
  intro hpe
  obtain ⟨e0, he0mem, he0l⟩ := List.any_eq_true.mp ha
  have he0p := links_event_pred hocc he0l
  have hcount := hu cid occ.event_id
  unfold eventEnrolCount at hcount
  rw [List.countP_eq_length_filter] at hcount
  have hef : e ∈ s.enrolments.filter
      (fun e => e.child_id == cid && enrolmentMatchesEvent s occ.event_id e) :=
    List.mem_filter.mpr ⟨hmem, hpe⟩
  have he0f : e0 ∈ s.enrolments.filter
      (fun e => e.child_id == cid && enrolmentMatchesEvent s occ.event_id e) :=
    List.mem_filter.mpr ⟨he0mem, he0p⟩
  have heq : e = e0 := mem_eq_of_length_le_one hcount hef he0f
  rw [heq, he0l] at hnl
  simp at hnl

/-- C7: for a child enrolled in an occurrence, in a state satisfying the
uniqueness invariant, Unenrol succeeds, and a subsequent Enrol for the same
(child, occurrence) succeeds and restores the enrolment, provided the
occurrence's time is still not in the past and its enrolment count is still
strictly below the event's capacity: unenrolment causes no lockout. -/
theorem C7_reenrol_roundtrip (s : DBState) (user oid cid now2 : Nat)
    (occ : Occurrence) (ev : Event)
    (hocc : findOccurrence s oid = some occ)
    (hev : findEvent s occ.event_id = some ev)
    (hchild : childLookup s user cid = true)
    (henr : s.enrolments.any (enrolmentLinks cid oid) = true)
    (hu : EventUnique s) :
    ∃ s1, unenrolOccurrence s user oid cid = .ok s1 ∧
      (now2 ≤ occ.time →
       (occurrenceEnrolments s1 oid).length < ev.capacity_per_occurrence →
       enrolOccurrence s1 now2 user oid cid =
         .ok ({ s1 with enrolments :=
                  { child_id := cid, occurrence_id := oid, created_at := now2 } ::
                    s1.enrolments },
              { child_id := cid, occurrence_id := oid, created_at := now2 }) ∧
       (applyEnrolTx s1 (enrolOccurrence s1 now2 user oid cid)).enrolments.any
         (enrolmentLinks cid oid) = true) := by
  have hok : unenrolOccurrence s user oid cid =
      .ok { s with enrolments :=
              s.enrolments.filter (fun e => !(enrolmentLinks cid oid e)) } := by
    unfold unenrolOccurrence
    rw [hchild, henr]
    rfl
  refine ⟨_, hok, ?_⟩
  intro htime hcap
  have hocc1 : findOccurrence
      { s with enrolments :=
          s.enrolments.filter (fun e => !(enrolmentLinks cid oid e)) } oid =
      some occ := hocc
  have hchild1 : childLookup
      { s with enrolments :=
          s.enrolments.filter (fun e => !(enrolmentLinks cid oid e)) } user cid =
      true := hchild
  have hev1 : findEvent
      { s with enrolments :=
          s.enrolments.filter (fun e => !(enrolmentLinks cid oid e)) }
      occ.event_id = some ev := hev
  have hnodup : childJoinedEvent
      { s with enrolments :=
          s.enrolments.filter (fun e => !(enrolmentLinks cid oid e)) } cid
      occ.event_id = false := by
    rw [childJoinedEvent_update]
    exact not_joined_after_unenrol hocc hu henr
  have hre := enrol_ok_of_valid hocc1 hchild1 hnodup hev1 hcap htime
  refine ⟨hre, ?_⟩
  rw [hre]
  unfold applyEnrolTx
  dsimp only
  rw [List.any_cons]
  have hl : enrolmentLinks cid oid
      { child_id := cid, occurrence_id := oid, created_at := now2 } = true := by
    unfold enrolmentLinks
    simp
  rw [hl]
  rfl

/-- C7 witness: unenrolling child 7 from occurrence 10 in exEnrolled yields
exBase, and re-enrolling at time 50 succeeds and restores the
association. -/
theorem C7_reenrol_roundtrip_witness :
    unenrolOccurrence exEnrolled 3 10 7 = .ok exBase ∧
    enrolOccurrence exBase 50 3 10 7 =
      .ok ({ exBase with enrolments :=
               [{ child_id := 7, occurrence_id := 10, created_at := 50 }] },
           { child_id := 7, occurrence_id := 10, created_at := 50 }) := by
  obtain ⟨s1, h1, h2⟩ := C7_reenrol_roundtrip exEnrolled 3 10 7 50 exOccA
    exEvent rfl rfl rfl (by decide) exEnrolled_eventUnique
  have hs1 : s1 = exBase := by
    have hrfl : unenrolOccurrence exEnrolled 3 10 7 = .ok exBase := rfl
    exact (Except.ok.inj (h1.symm.trans hrfl))
  subst hs1
  exact ⟨h1, ((h2 (by decide) (by decide)).1)⟩

/-- The time order on occurrences is total. -/
instance : IsTotal Occurrence (fun a b => a.time ≤ b.time) :=
  ⟨fun a b => Nat.le_total a.time b.time⟩

/-- The time order on occurrences is transitive. -/
instance : IsTrans Occurrence (fun a b => a.time ≤ b.time) :=
  ⟨fun _ _ _ hab hbc => Nat.le_trans hab hbc⟩

/-- C8: filtering the occurrence queryset with upcoming=true returns
exactly the occurrences whose time is at or after now, in ascending time
order. -/
theorem C8_upcoming_filter (s : DBState) (now : Nat) :
    (∀ o : Occurrence,
       o ∈ filter_by_upcoming (occurrencesQueryset s) now true ↔
         o ∈ s.occurrences ∧ now ≤ o.time) ∧
    (filter_by_upcoming (occurrencesQueryset s) now true).Sorted
      (fun a b => a.time ≤ b.time) := by
  have hperm := List.perm_insertionSort
    (fun a b : Occurrence => a.time ≤ b.time) s.occurrences
  constructor
  · intro o
    unfold filter_by_upcoming occurrencesQueryset
    rw [if_pos rfl, List.mem_filter]
    constructor
    · rintro ⟨hmem, hp⟩
      exact ⟨hperm.mem_iff.mp hmem, by simpa using hp⟩
    · rintro ⟨hmem, ht⟩
      exact ⟨hperm.mem_iff.mpr hmem, by simpa using ht⟩
  · unfold filter_by_upcoming occurrencesQueryset
    rw [if_pos rfl]
    exact List.Pairwise.filter _
      (List.sorted_insertionSort (fun a b : Occurrence => a.time ≤ b.time)
        s.occurrences)

/-- C9: the occurrence-language filter matches against the lower-cased
input value, so any two filter values equal up to letter case produce
identical result sets. -/
theorem C9_language_case_insensitive (qs : List Occurrence) (v1 v2 : String)
    (h : lowerString v1 = lowerString v2) :
    filter_by_occurrence_language qs v1 =
      filter_by_occurrence_language qs v2 := by
  unfold filter_by_occurrence_language
  rw [h]

/-- C9 witness: on the fixture occurrences, filtering with "FI" and with
"fi" yields the same result set, namely the single Finnish occurrence. -/
theorem C9_language_case_insensitive_witness :
    filter_by_occurrence_language [exOccA, exOccB] "FI" =
      filter_by_occurrence_language [exOccA, exOccB] "fi" ∧
    filter_by_occurrence_language [exOccA, exOccB] "FI" = [exOccA] :=
  ⟨C9_language_case_insensitive [exOccA, exOccB] "FI" "fi" (by decide), rfl⟩

/-- C10: a successful Unenrol removes exactly the association rows of the
given child and occurrence: the resulting enrolment table is the old one
with those rows filtered out, every other enrolment survives, the event,
occurrence, child and guardian tables are untouched, and under the
uniqueness invariant exactly one row was removed. -/
theorem C10_unenrol_frame (s s1 : DBState) (user oid cid : Nat)
    (occ : Occurrence)
    (h : unenrolOccurrence s user oid cid = .ok s1)
    (hocc : findOccurrence s oid = some occ)
    (hu : EventUnique s) :
    s1.events = s.events ∧ s1.occurrences = s.occurrences ∧
    s1.children = s.children ∧ s1.guardian_pairs = s.guardian_pairs ∧
    s1.enrolments =
      s.enrolments.filter (fun e => !(enrolmentLinks cid oid e)) ∧
    (∀ e ∈ s.enrolments, enrolmentLinks cid oid e = false →
      e ∈ s1.enrolments) ∧
    (∀ e ∈ s1.enrolments,
      e ∈ s.enrolments ∧ enrolmentLinks cid oid e = false) ∧
    s.enrolments.countP (enrolmentLinks cid oid) = 1 := by
  obtain ⟨hc, ha, hs1⟩ := unenrol_ok_inv h
  subst hs1
  refine ⟨rfl, rfl, rfl, rfl, rfl, ?_, ?_, ?_⟩
  · intro e hmem hnl
    apply List.mem_filter.mpr
    refine ⟨hmem, ?_⟩
    rw [hnl]
    rfl
  · intro e hmem
    have h2 := List.mem_filter.mp hmem
    refine ⟨h2.1, ?_⟩
    have h3 := h2.2
    simpa using h3
  · have hge : 0 < s.enrolments.countP (enrolmentLinks cid oid) := by
      rw [List.countP_pos_iff]
      obtain ⟨e0, hm, hl⟩ := List.any_eq_true.mp ha
      exact ⟨e0, hm, hl⟩
    have hmono : s.enrolments.countP (enrolmentLinks cid oid) ≤
        s.enrolments.countP
          (fun e => e.child_id == cid &&
            enrolmentMatchesEvent s occ.event_id e) :=
      List.countP_mono_left (fun e hm hl => links_event_pred hocc hl)
    have hcount := hu cid occ.event_id
    unfold eventEnrolCount at hcount
    omega

/-- C10 witness: unenrolling child 7 from occurrence 10 in exEnrolled
yields exBase: only the single linking row is removed and every other
table is unchanged. -/
theorem C10_unenrol_frame_witness :
    exBase.events = exEnrolled.events ∧
    exBase.occurrences = exEnrolled.occurrences ∧
    exBase.children = exEnrolled.children ∧
    exBase.guardian_pairs = exEnrolled.guardian_pairs ∧
    exBase.enrolments =
      exEnrolled.enrolments.filter (fun e => !(enrolmentLinks 7 10 e)) ∧
    exEnrolled.enrolments.countP (enrolmentLinks 7 10) = 1 := by
  have h := C10_unenrol_frame exEnrolled exBase 3 10 7 exOccA rfl rfl
    exEnrolled_eventUnique
  exact ⟨h.1, h.2.1, h.2.2.1, h.2.2.2.1, h.2.2.2.2.1, h.2.2.2.2.2.2.2⟩

end Kukkuu

